import Mathlib

/-!
Shallow embedding of the gitlab-to-azure-devops migration tool (`main.go`).

Source entities (gitlab notes, discussions, merge requests, projects) and
destination entities (azure-devops comments, threads, pull requests,
repositories) become Lean structures; the pure translation functions
(`translateDiscussion`, `translateNote`, `prepareNoteBody`,
`translatePullRequest`, ...) become Lean functions; the orchestration loops
(`importRepository` status polling, paginated fetching) become explicit
recursions over a modelled environment of API responses.  Machine pointers
that may be nil become `Option`; a nil-pointer dereference or out-of-bounds
index (a Go panic) is modelled by a dedicated `none` / `panicNilDeref`
result at the function boundary where it would occur.
-/

namespace GitlabAzdoMigration

/-- Azure DevOps SDK enum value (string): `git.CommentThreadStatusValues.Fixed`. -/
def CommentThreadStatusValues.fixed : String := "fixed"

/-- Azure DevOps SDK enum value (string): `git.CommentThreadStatusValues.Active`. -/
def CommentThreadStatusValues.active : String := "active"

/-- Azure DevOps SDK enum value (string): `git.CommentTypeValues.Text`. -/
def CommentTypeValues.text : String := "text"

/-- Azure DevOps SDK enum value (string): `git.CommentTypeValues.CodeChange`. -/
def CommentTypeValues.codeChange : String := "codeChange"

/-- Azure DevOps SDK enum value (string): `git.PullRequestStatusValues.Active`. -/
def PullRequestStatusValues.active : String := "active"

/-- Azure DevOps SDK enum value: `git.GitAsyncOperationStatusValues.Abandoned`. -/
def GitAsyncOperationStatusValues.abandoned : String := "abandoned"

/-- Azure DevOps SDK enum value: `git.GitAsyncOperationStatusValues.Completed`. -/
def GitAsyncOperationStatusValues.completed : String := "completed"

/-- Azure DevOps SDK enum value: `git.GitAsyncOperationStatusValues.Failed`. -/
def GitAsyncOperationStatusValues.failed : String := "failed"

/-- Azure DevOps SDK enum value: `git.GitAsyncOperationStatusValues.InProgress`. -/
def GitAsyncOperationStatusValues.inProgress : String := "inProgress"

/-- Azure DevOps SDK enum value: `git.GitAsyncOperationStatusValues.Queued`. -/
def GitAsyncOperationStatusValues.queued : String := "queued"

/-- A gitlab user as it appears on notes and merge requests
(`Name`, `Username`, `AvatarURL`, `WebURL`). -/
structure UserInfo where
  name : String
  username : String
  avatarURL : String
  webURL : String
deriving DecidableEq, Repr

/-- One edge of a gitlab position line range (`StartRange.NewLine` /
`EndRange.NewLine`). -/
structure LineRangeEdge where
  newLine : Int
deriving DecidableEq, Repr

/-- `gitlab.LineRange`: start and end of a multi-line note position. -/
structure NoteLineRange where
  startRange : LineRangeEdge
  endRange : LineRangeEdge
deriving DecidableEq, Repr

/-- `gitlab.NotePosition`: file path and line of a code-attached note.
`LineRange` is a nil-able pointer, hence `Option`. -/
structure NotePosition where
  newPath : String
  newLine : Int
  lineRange : Option NoteLineRange
deriving DecidableEq, Repr

/-- `gitlab.Note`: one comment inside a discussion.  `Position` is a
nil-able pointer, hence `Option`; timestamps are abstracted to `Int`. -/
structure Note where
  id : Int
  body : String
  system : Bool
  resolved : Bool
  createdAt : Int
  updatedAt : Int
  position : Option NotePosition
  author : UserInfo
deriving DecidableEq, Repr

/-- `gitlab.Discussion`: an ordered list of notes. -/
structure Discussion where
  notes : List Note
deriving DecidableEq, Repr

/-- `gitlab.MergeRequest`, restricted to the fields `main.go` reads. -/
structure MergeRequest where
  iid : Int
  projectID : Int
  state : String
  title : String
  description : String
  webURL : String
  sourceBranch : String
  targetBranch : String
  workInProgress : Bool
  mergeCommitSHA : String
  createdAt : Int
  author : UserInfo
deriving DecidableEq, Repr

/-- `gitlab.Project`, restricted to the fields `main.go` reads. -/
structure GitlabProject where
  id : Int
  path : String
  webURL : String
  sshURLToRepo : String
  httpURLToRepo : String
deriving DecidableEq, Repr

/-- `git.GitRepository` (azure-devops), restricted to the fields read. -/
structure GitRepository where
  id : String
  name : String
  sshUrl : String
  webUrl : String
deriving DecidableEq, Repr

/-- `git.Comment` (azure-devops): one comment of a pull-request thread. -/
structure Comment where
  id : Nat
  content : String
  publishedDate : Int
  lastUpdatedDate : Int
  commentType : String
  parentCommentId : Nat
deriving DecidableEq, Repr

/-- `git.CommentThreadContext`: the file position attached to a thread. -/
structure CommentThreadContext where
  filePath : String
  rightFileStart : Int
  rightFileEnd : Int
deriving DecidableEq, Repr

/-- `git.GitPullRequestCommentThread`: a destination comment thread.
`ThreadContext` is a nil-able pointer, hence `Option`. -/
structure GitPullRequestCommentThread where
  status : String
  threadContext : Option CommentThreadContext
  comments : List Comment
  publishedDate : Int
deriving DecidableEq, Repr

/-- `git.GitPullRequest` (azure-devops), the fields `translatePullRequest`
populates.  `LastMergeCommit` holds just the commit id here. -/
structure GitPullRequest where
  createdByDisplayName : String
  createdByDescriptor : String
  creationDate : Int
  isDraft : Bool
  repository : GitRepository
  lastMergeCommit : Option String
  status : String
  title : String
  sourceRefName : String
  targetRefName : String
  description : String
deriving DecidableEq, Repr

/-- The characters of the gitlab range-qualified suggestion marker.  The Go
regex `SuggestionReplacer` is `regexp.MustCompile("` ++ "```" ++ `suggestion:.*")`:
it matches this marker followed by the rest of the line. -/
def suggestionMarker : List Char := "```suggestion:".data

/-- One regex match step within a single line: replace everything from the
first occurrence of `suggestionMarker` to the end of the line by `repl`
(the Go pattern ends in `.*`, which is greedy and never crosses a
newline, so a match always extends exactly to the end of its line). -/
def replaceToEOL (repl : List Char) : List Char → List Char
  | [] => []
  | c :: cs => if suggestionMarker.isPrefixOf (c :: cs) then repl else c :: replaceToEOL repl cs

/-- `SuggestionReplacer.ReplaceAllString(body, repl)`: since `.` does not
match a newline, the regex acts independently on every line of `body`. -/
def suggestionReplaceAll (repl : String) (body : String) : String :=
  String.mk (List.intercalate ['\n'] ((body.data.splitOn '\n').map (replaceToEOL repl.data)))

/-- The replacement text used for suggestions inside a multiline first note
(the literal from `prepareNoteBody`, including its U+FE0F character). -/
def multilineSuggestionRepl : String :=
  "🚩 **️Multiline suggestions are not supported in AzDO - if suggestion is multiline, commit it manually**\n```suggestion"

/-- `prepareNoteLink`: deep link back to the source note. -/
def prepareNoteLink (note : Note) (mr : MergeRequest) : String :=
  mr.webURL ++ "/diffs#note_" ++ toString note.id

/-- The `fmt.Sprintf` template of `prepareNoteBody`: attribution line
(with `lineRange` appended), blank line, then the rewritten body. -/
def noteContent (mr : MergeRequest) (note : Note) (lineRange : String) (body : String) : String :=
  "*Migrated from [Gitlab](" ++ prepareNoteLink note mr ++ ") | Author: ![" ++
    note.author.name ++ "](" ++ note.author.avatarURL ++ " =24x24) [" ++
    note.author.name ++ "](" ++ note.author.webURL ++ ")" ++ lineRange ++ "*\n\n" ++ body

/-- The multi-line test of `prepareNoteBody` on the note itself:
`note.Position != nil && note.Position.LineRange != nil &&
StartRange.NewLine != EndRange.NewLine`, returning the line range it
found. -/
def noteMultilineRange (note : Note) : Option NoteLineRange :=
  match note.position with
  | some p =>
    match p.lineRange with
    | some lr => if lr.startRange.newLine ≠ lr.endRange.newLine then some lr else none
    | none => none
  | none => none

/-- `prepareNoteBody`: if this is the first note (`id == 1`) and its
position spans more than one line, append a bold multiline warning to the
attribution line and rewrite suggestion blocks with a manual-application
warning; afterwards every remaining range-qualified suggestion marker is
normalized to the bare marker. -/
def prepareNoteBody (mr : MergeRequest) (note : Note) (id : Nat) : String :=
  let multiline : Option NoteLineRange :=
    if id = 1 then noteMultilineRange note else none
  match multiline with
  | some lr =>
    noteContent mr note
      ("| **🚩 Multiline comment " ++ toString lr.startRange.newLine ++ "-" ++
        toString lr.endRange.newLine ++ "**")
      (suggestionReplaceAll "```suggestion" (suggestionReplaceAll multilineSuggestionRepl note.body))
  | none =>
    noteContent mr note "" (suggestionReplaceAll "```suggestion" note.body)

/-- `translateNote`: one gitlab note becomes one destination comment with
the given positional `id` and parent id `id - 1`. -/
def translateNote (mr : MergeRequest) (note : Note) (id : Nat) (commentType : String) : Comment :=
  { id := id
    content := prepareNoteBody mr note id
    publishedDate := note.createdAt
    lastUpdatedDate := note.updatedAt
    commentType := commentType
    parentCommentId := id - 1 }

/-- The comment type computed inside the `translateDiscussion` loop: it
depends only on the discussion's first note. -/
def firstNoteCommentType (firstNote : Note) : String :=
  match firstNote.position with
  | some p => if p.newPath ≠ "" then CommentTypeValues.codeChange else CommentTypeValues.text
  | none => CommentTypeValues.text

/-- The `for _, note := range discussion.Notes` loop of
`translateDiscussion`: accumulates the translated comments (ids counted
from the initial `id`) and flips the status to active on any unresolved
note. -/
def translateLoop (mr : MergeRequest) (firstNote : Note) (notes : List Note) (id : Nat)
    (status : String) (comments : List Comment) : List Comment × String :=
  match notes with
  | [] => (comments, status)
  | note :: rest =>
    translateLoop mr firstNote rest (id + 1)
      (if !note.resolved then CommentThreadStatusValues.active else status)
      (comments ++ [translateNote mr note id (firstNoteCommentType firstNote)])

/-- Straight-line description of the comments the loop produces, used to
state theorems about `translateLoop`. -/
def translatedComments (mr : MergeRequest) (firstNote : Note) (notes : List Note) (id : Nat) :
    List Comment :=
  match notes with
  | [] => []
  | note :: rest =>
    translateNote mr note id (firstNoteCommentType firstNote) ::
      translatedComments mr firstNote rest (id + 1)

/-- The thread-level file context derived from the first note
(`thread.ThreadContext` assignment in `translateDiscussion`). -/
def firstNoteThreadContext (firstNote : Note) : Option CommentThreadContext :=
  match firstNote.position with
  | some p =>
    if p.newPath ≠ "" then
      let line :=
        match p.lineRange with
        | some lr => lr.startRange.newLine
        | none => p.newLine
      some { filePath := "/" ++ p.newPath, rightFileStart := line, rightFileEnd := line }
    else none
  | none => none

/-- `translateDiscussion`.  The outer `Option` marks the Go panic on
`discussion.Notes[0]` for an empty note list (`none` = out-of-bounds
index); the inner `Option` is the function's own `nil, nil` return for a
system-generated first note.  A translated discussion yields the init
payload and, when there is more than one comment, the follow-up payload
holding the remaining comments without thread context. -/
def translateDiscussion (mr : MergeRequest) (discussion : Discussion) :
    Option (Option (GitPullRequestCommentThread × Option GitPullRequestCommentThread)) :=
  match discussion.notes with
  | [] => none
  | firstNote :: rest =>
    some
      (if firstNote.system then none
       else
        let result :=
          translateLoop mr firstNote (firstNote :: rest) 1 CommentThreadStatusValues.fixed []
        let comments := result.1
        let status := result.2
        match comments with
        -- unreachable: the loop yields one comment per note and the note
        -- list is non-empty here (Go would panic on comments[0] otherwise)
        | [] => none
        | c :: cs =>
          if cs.isEmpty then
            some ({ status := status
                    threadContext := firstNoteThreadContext firstNote
                    comments := c :: cs
                    publishedDate := firstNote.createdAt }, none)
          else
            some ({ status := status
                    threadContext := firstNoteThreadContext firstNote
                    comments := [c]
                    publishedDate := firstNote.createdAt },
                  some { status := status
                         threadContext := none
                         comments := cs
                         publishedDate := firstNote.createdAt }))

/-- `preparePullRequestDescription`: attribution block followed by the
original merge-request description. -/
def preparePullRequestDescription (mr : MergeRequest) : String :=
  "*Migrated from [Gitlab](" ++ mr.webURL ++ ") | Author: ![" ++ mr.author.name ++ "](" ++
    mr.author.avatarURL ++ " =24x24) [" ++ mr.author.name ++ "](" ++ mr.author.webURL ++
    ")*\n\n" ++ mr.description

/-- `translatePullRequest`: closed or merged merge requests are skipped
(`nil`); anything else becomes a destination pull request. -/
def translatePullRequest (mr : MergeRequest) (repository : GitRepository) :
    Option GitPullRequest :=
  if mr.state = "closed" ∨ mr.state = "merged" then none
  else
    some
      { createdByDisplayName := mr.author.username
        createdByDescriptor := mr.author.name
        creationDate := mr.createdAt
        isDraft := mr.workInProgress
        repository := repository
        lastMergeCommit := if mr.mergeCommitSHA ≠ "" then some mr.mergeCommitSHA else none
        status := PullRequestStatusValues.active
        title := mr.title
        sourceRefName := "refs/heads/" ++ mr.sourceBranch
        targetRefName := "refs/heads/" ++ mr.targetBranch
        description := preparePullRequestDescription mr }

/-- The (dereferenced) result object of one `GetImportRequest` call:
`*currentRequest.Status` and `*currentRequest.DetailedStatus.ErrorMessage`. -/
structure GitImportRequestResult where
  status : String
  errorMessage : String
deriving DecidableEq, Repr

/-- One response of the `GetImportRequest` poll call: the nil-able result
pointer and the nil-able error. -/
structure PollResponse where
  currentRequest : Option GitImportRequestResult
  err : Option String
deriving DecidableEq, Repr

/-- A log/side-effect event emitted by the orchestrator. -/
inductive LogEvent where
  | infoLine (line : String)
  | debugLine (line : String)
  | errorLine (line : String)
  | sleepSeconds (n : Nat)
deriving DecidableEq, Repr

/-- Outcome of the import-status poll loop in `importRepository`. -/
inductive PollOutcome where
  | success (repo : GitRepository)
  | aborted
  | panicNilDeref
  | exhausted
deriving DecidableEq, Repr

/-- The `for` poll loop of `importRepository`, driven by the finite list of
modelled poll responses.  `success` returns the created repository handle;
`aborted` is the `return nil` of the Abandoned/Failed branches;
`panicNilDeref` marks the Go nil-pointer dereference of
`*currentRequest.Status` when the poll returned no result object together
with a non-nil error; `exhausted` means the modelled responses ran out
while the loop was still polling (the real loop has no retry ceiling). -/
def pollImportLoop (azdoRepository : GitRepository) (polls : List PollResponse) :
    PollOutcome × List LogEvent :=
  match polls with
  | [] => (PollOutcome.exhausted, [])
  | p :: rest =>
    match p.currentRequest with
    | none =>
      match p.err with
      | none =>
        (PollOutcome.success azdoRepository,
         [LogEvent.debugLine ("import finished - " ++ azdoRepository.webUrl)])
      | some _ => (PollOutcome.panicNilDeref, [])
    | some cur =>
      if cur.status = GitAsyncOperationStatusValues.completed then
        (PollOutcome.success azdoRepository,
         [LogEvent.debugLine ("import finished - " ++ azdoRepository.webUrl)])
      else if cur.status = GitAsyncOperationStatusValues.abandoned then
        (PollOutcome.aborted, [LogEvent.errorLine "import request abandoned"])
      else if cur.status = GitAsyncOperationStatusValues.failed then
        (PollOutcome.aborted,
         [LogEvent.errorLine ("import request failed: " ++ cur.errorMessage)])
      else
        let recursed := pollImportLoop azdoRepository rest
        (recursed.1,
         LogEvent.debugLine "waiting for import to finish retry in 3 seconds..." ::
           LogEvent.sleepSeconds 3 :: recursed.2)

/-- The machine-parsable audit line logged by `importRepository`
(`log.Infof("GIT:%d;%s;%s;%s;%s", ...)`). -/
def gitAuditLine (gitlabProject : GitlabProject) (azdoRepository : GitRepository) : String :=
  "GIT:" ++ toString gitlabProject.id ++ ";" ++ gitlabProject.webURL ++ ";" ++
    gitlabProject.sshURLToRepo ++ ";" ++ gitlabProject.httpURLToRepo ++ ";" ++
    azdoRepository.sshUrl

/-- The modelled environment of destination-API responses consumed by one
`importRepository` run: the result of `reinitAzdoRepository`, the result of
`createImportRequest`, and the successive poll responses. -/
structure ImportEnv where
  reinitResult : Except String GitRepository
  createImportResult : Except String Unit
  polls : List PollResponse
deriving Repr

/-- Overall outcome of one `importRepository` run: `done` is a normal
return (carrying the repository on success, `none` on the error paths),
`panicked` a Go panic inside the poll loop, `stillPolling` that the
modelled poll responses ran out before a terminal status. -/
inductive ImportOutcome where
  | done (repo : Option GitRepository)
  | panicked
  | stillPolling
deriving DecidableEq, Repr

/-- `importRepository`: create the destination repository, log the GIT
audit line, create the import job, then poll until a terminal status. -/
def importRepository (gitlabProject : GitlabProject) (env : ImportEnv) :
    ImportOutcome × List LogEvent :=
  match env.reinitResult with
  | Except.error e => (ImportOutcome.done none, [LogEvent.errorLine e])
  | Except.ok azdoRepository =>
    let auditLog := LogEvent.infoLine (gitAuditLine gitlabProject azdoRepository)
    match env.createImportResult with
    | Except.error e => (ImportOutcome.done none, [auditLog, LogEvent.errorLine e])
    | Except.ok _ =>
      let polled := pollImportLoop azdoRepository env.polls
      let result :=
        match polled.1 with
        | PollOutcome.success repo => ImportOutcome.done (some repo)
        | PollOutcome.aborted => ImportOutcome.done none
        | PollOutcome.panicNilDeref => ImportOutcome.panicked
        | PollOutcome.exhausted => ImportOutcome.stillPolling
      (result, auditLog :: polled.2)

/-- One page of a paginated gitlab list response, with the go-gitlab
`Response.NextPage` / `Response.CurrentPage` fields. -/
structure PageResponse (α : Type) where
  items : List α
  nextPage : Int
  currentPage : Int
deriving DecidableEq, Repr

/-- The pagination `for` loop of `importMergeRequests`: fetch the page at
the current page number, process its items, and continue with `Page+1`
exactly when `NextPage > CurrentPage`.  `fuel` bounds the modelled number
of iterations; `none` means the fuel ran out. -/
def importMergeRequestsLoop (fuel : Nat) (pages : Nat → PageResponse MergeRequest)
    (page : Nat) : Option (List MergeRequest) :=
  match fuel with
  | 0 => none
  | f + 1 =>
    let response := pages page
    if response.nextPage > response.currentPage then
      match importMergeRequestsLoop f pages (page + 1) with
      | none => none
      | some rest => some (response.items ++ rest)
    else some response.items

/-- The pagination `for` loop of `importComments`, identical in structure
to the merge-request loop but fetching discussions. -/
def importCommentsLoop (fuel : Nat) (pages : Nat → PageResponse Discussion)
    (page : Nat) : Option (List Discussion) :=
  match fuel with
  | 0 => none
  | f + 1 =>
    let response := pages page
    if response.nextPage > response.currentPage then
      match importCommentsLoop f pages (page + 1) with
      | none => none
      | some rest => some (response.items ++ rest)
    else some response.items

/-- Whether a note carries a file position (a non-nil `Position` with a
non-empty `NewPath`) — the condition `translateDiscussion` tests on the
first note. -/
def hasFilePosition (note : Note) : Bool :=
  match note.position with
  | some p => p.newPath ≠ ""
  | none => false

/-- Concrete gitlab user used in witnesses. -/
def sampleAuthor : UserInfo :=
  { name := "John Doe"
    username := "jdoe"
    avatarURL := "https://www.gravatar.com/avatar/0"
    webURL := "https://gitlab.com/john-doe" }

/-- Concrete merge request used in witnesses. -/
def sampleMR : MergeRequest :=
  { iid := 1
    projectID := 5
    state := "opened"
    title := "t"
    description := "open merge request description"
    webURL := "https://gitlab.com/gitlab-examples/php/-/merge_requests/1"
    sourceBranch := "feat"
    targetBranch := "main"
    workInProgress := false
    mergeCommitSHA := ""
    createdAt := 0
    author := sampleAuthor }

/-- Concrete plain note (no position) used in witnesses. -/
def sampleNote : Note :=
  { id := 41
    body := "a plain note"
    system := false
    resolved := false
    createdAt := 0
    updatedAt := 0
    position := none
    author := sampleAuthor }

/-- Concrete reply note used in witnesses. -/
def sampleReply : Note :=
  { id := 43
    body := "a reply"
    system := false
    resolved := true
    createdAt := 1
    updatedAt := 1
    position := none
    author := sampleAuthor }

/-- Concrete first note with a 1-2 line range and a range-qualified
suggestion block, used for the multiline-rewrite claim. -/
def sampleMultilineNote : Note :=
  { id := 42
    body := "```suggestion:-0+0\nnew code\n```"
    system := false
    resolved := false
    createdAt := 0
    updatedAt := 0
    position := some
      { newPath := "src/a.go"
        newLine := 1
        lineRange := some { startRange := { newLine := 1 }, endRange := { newLine := 2 } } }
    author := sampleAuthor }

/-- Concrete non-first note containing a range-qualified suggestion
marker, used for the normalization claim. -/
def sampleSuggestionNote : Note :=
  { id := 44
    body := "x ```suggestion:-1+2"
    system := false
    resolved := true
    createdAt := 2
    updatedAt := 2
    position := none
    author := sampleAuthor }

/-- Concrete gitlab project used for the import-orchestration claims. -/
def sampleProject : GitlabProject :=
  { id := 7
    path := "p"
    webURL := "https://gitlab.example/p"
    sshURLToRepo := "git@gitlab.example:p.git"
    httpURLToRepo := "https://gitlab.example/p.git" }

/-- Concrete destination repository used for the import-orchestration
claims. -/
def sampleRepo : GitRepository :=
  { id := "r1", name := "p", sshUrl := "azdo-ssh-url", webUrl := "azdo-web-url" }

/- ------------------------------------------------------------------ -/
/- Helper lemmas about the embedded loops.                             -/
/- ------------------------------------------------------------------ -/

theorem isPrefixOf_append (l r : List Char) : l.isPrefixOf (l ++ r) = true := by
  induction l with
  | nil => cases r <;> rfl
  | cons c cs ih => simp [List.isPrefixOf, ih]

theorem replaceToEOL_of_marker_head (repl : List Char) (l : List Char)
    (h : suggestionMarker.isPrefixOf l = true) : replaceToEOL repl l = repl := by
  cases l with
  | nil => exact absurd h (by decide)
  | cons c cs => simp [replaceToEOL, h]

theorem replaceToEOL_first_occurrence (repl pre tail : List Char)
    (hpre : ∀ i, i < pre.length →
      suggestionMarker.isPrefixOf ((pre ++ (suggestionMarker ++ tail)).drop i) = false) :
    replaceToEOL repl (pre ++ (suggestionMarker ++ tail)) = pre ++ repl := by
  induction pre with
  | nil =>
    simp only [List.nil_append]
    exact replaceToEOL_of_marker_head repl _ (isPrefixOf_append _ _)
  | cons c cs ih =>
    have h0 := hpre 0 (by simp)
    simp only [List.drop_zero, List.cons_append] at h0
    have hstep : ∀ i, i < cs.length →
        suggestionMarker.isPrefixOf ((cs ++ (suggestionMarker ++ tail)).drop i) = false := by
      intro i hi
      have := hpre (i + 1) (by simpa using Nat.succ_lt_succ hi)
      simpa [List.cons_append] using this
    simp only [List.cons_append, replaceToEOL, List.append_eq, h0, Bool.false_eq_true, if_false]
    rw [ih hstep]

theorem suggestionReplaceAll_single_line (repl : String) (pre tail : List Char)
    (hnl : ∀ ch ∈ pre ++ (suggestionMarker ++ tail), ch ≠ '\n')
    (hpre : ∀ i, i < pre.length →
      suggestionMarker.isPrefixOf ((pre ++ (suggestionMarker ++ tail)).drop i) = false) :
    suggestionReplaceAll repl (String.mk (pre ++ (suggestionMarker ++ tail))) =
      String.mk (pre ++ repl.data) := by
  unfold suggestionReplaceAll
  rw [show (String.mk (pre ++ (suggestionMarker ++ tail))).data
      = pre ++ (suggestionMarker ++ tail) from rfl]
  have hsplit : (pre ++ (suggestionMarker ++ tail)).splitOn '\n'
      = [pre ++ (suggestionMarker ++ tail)] := by
    simp only [List.splitOn]
    exact List.splitOnP_eq_single _ _ (by intro x hx; simpa using hnl x hx)
  rw [hsplit]
  simp only [List.map_cons, List.map_nil]
  rw [replaceToEOL_first_occurrence repl.data pre tail hpre]
  simp [List.intercalate]

theorem translateLoop_fst (mr : MergeRequest) (firstNote : Note) (notes : List Note) :
    ∀ id status comments,
      (translateLoop mr firstNote notes id status comments).1 =
        comments ++ translatedComments mr firstNote notes id := by
  induction notes with
  | nil => intro id status comments; simp [translateLoop, translatedComments]
  | cons note rest ih =>
    intro id status comments
    simp [translateLoop, translatedComments, ih]

theorem translateLoop_snd (mr : MergeRequest) (firstNote : Note) (notes : List Note) :
    ∀ id status comments,
      (translateLoop mr firstNote notes id status comments).2 =
        if notes.any (fun n => !n.resolved) then CommentThreadStatusValues.active else status := by
  induction notes with
  | nil => intro id status comments; simp [translateLoop]
  | cons note rest ih =>
    intro id status comments
    simp only [translateLoop, List.any_cons]
    rw [ih]
    by_cases h : note.resolved <;> by_cases h2 : rest.any (fun n => !n.resolved) <;> simp [h, h2]

theorem translatedComments_length (mr : MergeRequest) (firstNote : Note) (notes : List Note) :
    ∀ id, (translatedComments mr firstNote notes id).length = notes.length := by
  induction notes with
  | nil => intro id; rfl
  | cons n r ih => intro id; simp [translatedComments, ih]

theorem translatedComments_map_id (mr : MergeRequest) (firstNote : Note) (notes : List Note) :
    ∀ id, (translatedComments mr firstNote notes id).map Comment.id =
      List.range' id notes.length := by
  induction notes with
  | nil => intro id; rfl
  | cons n r ih => intro id; simp [translatedComments, translateNote, List.range'_succ, ih]

theorem translatedComments_parent (mr : MergeRequest) (firstNote : Note) (notes : List Note) :
    ∀ id, ∀ c ∈ translatedComments mr firstNote notes id, c.parentCommentId = c.id - 1 := by
  induction notes with
  | nil => intro id c hc; simp [translatedComments] at hc
  | cons n r ih =>
    intro id c hc
    simp only [translatedComments, List.mem_cons] at hc
    rcases hc with h | h
    · subst h; rfl
    · exact ih (id + 1) c h

theorem translatedComments_type (mr : MergeRequest) (firstNote : Note) (notes : List Note) :
    ∀ id, ∀ c ∈ translatedComments mr firstNote notes id,
      c.commentType = firstNoteCommentType firstNote := by
  induction notes with
  | nil => intro id c hc; simp [translatedComments] at hc
  | cons n r ih =>
    intro id c hc
    simp only [translatedComments, List.mem_cons] at hc
    rcases hc with h | h
    · subst h; rfl
    · exact ih (id + 1) c h

theorem firstNoteCommentType_eq (firstNote : Note) :
    firstNoteCommentType firstNote =
      if hasFilePosition firstNote then CommentTypeValues.codeChange
      else CommentTypeValues.text := by
  unfold firstNoteCommentType hasFilePosition
  cases firstNote.position with
  | none => simp
  | some p => by_cases h : p.newPath = "" <;> simp [h]

theorem translateDiscussion_single (mr : MergeRequest) (f : Note) (h : f.system = false) :
    translateDiscussion mr ⟨[f]⟩ =
      some (some (
        ({ status :=
             if [f].any (fun n => !n.resolved) then CommentThreadStatusValues.active
             else CommentThreadStatusValues.fixed
           threadContext := firstNoteThreadContext f
           comments := [translateNote mr f 1 (firstNoteCommentType f)]
           publishedDate := f.createdAt }, none))) := by
  by_cases hr : f.resolved <;> simp [translateDiscussion, h, translateLoop, hr]

theorem translateDiscussion_multi (mr : MergeRequest) (f n2 : Note) (rest : List Note)
    (h : f.system = false) :
    translateDiscussion mr ⟨f :: n2 :: rest⟩ =
      some (some (
        ({ status :=
             if (f :: n2 :: rest).any (fun n => !n.resolved) then CommentThreadStatusValues.active
             else CommentThreadStatusValues.fixed
           threadContext := firstNoteThreadContext f
           comments := [translateNote mr f 1 (firstNoteCommentType f)]
           publishedDate := f.createdAt },
         some { status :=
                  if (f :: n2 :: rest).any (fun n => !n.resolved) then
                    CommentThreadStatusValues.active
                  else CommentThreadStatusValues.fixed
                threadContext := none
                comments := translatedComments mr f (n2 :: rest) 2
                publishedDate := f.createdAt }))) := by
  have hfst := translateLoop_fst mr f (f :: n2 :: rest) 1 CommentThreadStatusValues.fixed []
  have hsnd := translateLoop_snd mr f (f :: n2 :: rest) 1 CommentThreadStatusValues.fixed []
  simp only [List.nil_append] at hfst
  simp [translateDiscussion, h, hfst, hsnd, translatedComments]

/-!  Claim theorems. -/

/-- Claim C1: a translated one-note discussion yields a single thread
payload and no follow-up; a discussion with more notes yields an init
payload with exactly the first comment and a full payload with the
remaining ones, ids numbered 1..N by position and each parent id equal to
the comment's id minus 1. -/
theorem translateDiscussion_payload_shape (mr : MergeRequest) (f : Note)
    (h : f.system = false) :
    (∃ t, translateDiscussion mr ⟨[f]⟩ = some (some (t, none)) ∧
       t.comments.map Comment.id = [1] ∧
       t.comments.map Comment.parentCommentId = [0]) ∧
    (∀ n2 rest, ∃ init full,
       translateDiscussion mr ⟨f :: n2 :: rest⟩ = some (some (init, some full)) ∧
       init.comments = [translateNote mr f 1 (firstNoteCommentType f)] ∧
       full.comments.length = (n2 :: rest).length ∧
       (init.comments ++ full.comments).map Comment.id =
         List.range' 1 (f :: n2 :: rest).length ∧
       (∀ c ∈ init.comments ++ full.comments, c.parentCommentId = c.id - 1)) := by
  constructor
  · refine ⟨_, translateDiscussion_single mr f h, ?_, ?_⟩
    · simp [translateNote]
    · simp [translateNote]
  · intro n2 rest
    refine ⟨_, _, translateDiscussion_multi mr f n2 rest h, rfl, ?_, ?_, ?_⟩
    · exact translatedComments_length mr f (n2 :: rest) 2
    · rw [List.map_append, translatedComments_map_id mr f (n2 :: rest) 2]
      simp [translateNote, List.range'_succ]
    · intro c hc
      rcases List.mem_append.mp hc with hc | hc
      · simp only [List.mem_singleton] at hc; subst hc; rfl
      · exact translatedComments_parent mr f (n2 :: rest) 2 c hc

/-- Witness for C1 at concrete one-note and two-note discussions. -/
theorem translateDiscussion_payload_shape_witness :
    (∃ t, translateDiscussion sampleMR ⟨[sampleNote]⟩ = some (some (t, none)) ∧
       t.comments.map Comment.id = [1] ∧
       t.comments.map Comment.parentCommentId = [0]) ∧
    (∃ init full,
       translateDiscussion sampleMR ⟨[sampleNote, sampleReply]⟩ = some (some (init, some full)) ∧
       init.comments = [translateNote sampleMR sampleNote 1 (firstNoteCommentType sampleNote)] ∧
       full.comments.length = [sampleReply].length ∧
       (init.comments ++ full.comments).map Comment.id =
         List.range' 1 [sampleNote, sampleReply].length ∧
       (∀ c ∈ init.comments ++ full.comments, c.parentCommentId = c.id - 1)) :=
  ⟨(translateDiscussion_payload_shape sampleMR sampleNote rfl).1,
   (translateDiscussion_payload_shape sampleMR sampleNote rfl).2 sampleReply []⟩

/-- Claim C2: every payload of a translated discussion carries status
"active" exactly when some note of the discussion is unresolved, and
status "fixed" otherwise; the follow-up payload shares the init payload's
status. -/
theorem translateDiscussion_status_active_iff (mr : MergeRequest) (f : Note) (rest : List Note)
    (h : f.system = false) :
    ∃ pair, translateDiscussion mr ⟨f :: rest⟩ = some (some pair) ∧
      (pair.1.status = CommentThreadStatusValues.active ↔
        ∃ n ∈ f :: rest, n.resolved = false) ∧
      ((¬∃ n ∈ f :: rest, n.resolved = false) →
        pair.1.status = CommentThreadStatusValues.fixed) ∧
      (∀ full, pair.2 = some full → full.status = pair.1.status) := by
  cases rest with
  | nil =>
    refine ⟨_, translateDiscussion_single mr f h, ?_, ?_, ?_⟩
    · by_cases hany : [f].any (fun n => !n.resolved) <;>
        simp_all [CommentThreadStatusValues.active, CommentThreadStatusValues.fixed]
    · by_cases hany : [f].any (fun n => !n.resolved) <;>
        simp_all [CommentThreadStatusValues.active, CommentThreadStatusValues.fixed]
    · intro full hfull; simp at hfull
  | cons n2 rest' =>
    refine ⟨_, translateDiscussion_multi mr f n2 rest' h, ?_, ?_, ?_⟩
    · by_cases hany : (f :: n2 :: rest').any (fun n => !n.resolved) <;>
        simp_all [CommentThreadStatusValues.active, CommentThreadStatusValues.fixed]
    · by_cases hany : (f :: n2 :: rest').any (fun n => !n.resolved) <;>
        simp_all [CommentThreadStatusValues.active, CommentThreadStatusValues.fixed]
    · intro full hfull
      simp only [Option.some.injEq] at hfull
      subst hfull; rfl

/-- Witness for C2 at a concrete two-note discussion with one unresolved
note. -/
theorem translateDiscussion_status_active_iff_witness :
    ∃ pair, translateDiscussion sampleMR ⟨[sampleNote, sampleReply]⟩ = some (some pair) ∧
      (pair.1.status = CommentThreadStatusValues.active ↔
        ∃ n ∈ [sampleNote, sampleReply], n.resolved = false) ∧
      ((¬∃ n ∈ [sampleNote, sampleReply], n.resolved = false) →
        pair.1.status = CommentThreadStatusValues.fixed) ∧
      (∀ full, pair.2 = some full → full.status = pair.1.status) :=
  translateDiscussion_status_active_iff sampleMR sampleNote [sampleReply] rfl

/-- Claim C3: all comments of a translated discussion, in the init and in
the follow-up payload alike, carry one comment type: "codeChange" when the
discussion's first note carries a file position and "text" otherwise,
regardless of the later notes' positions. -/
theorem translateDiscussion_comment_type_uniform (mr : MergeRequest) (f : Note)
    (rest : List Note) (h : f.system = false) :
    ∃ pair, translateDiscussion mr ⟨f :: rest⟩ = some (some pair) ∧
      ∀ c ∈ pair.1.comments ++
          (match pair.2 with | some t => t.comments | none => ([] : List Comment)),
        c.commentType =
          if hasFilePosition f then CommentTypeValues.codeChange else CommentTypeValues.text := by
  cases rest with
  | nil =>
    refine ⟨_, translateDiscussion_single mr f h, ?_⟩
    intro c hc
    simp only [List.append_nil, List.mem_singleton] at hc
    subst hc
    rw [show (translateNote mr f 1 (firstNoteCommentType f)).commentType =
        firstNoteCommentType f from rfl]
    exact firstNoteCommentType_eq f
  | cons n2 rest' =>
    refine ⟨_, translateDiscussion_multi mr f n2 rest' h, ?_⟩
    intro c hc
    rcases List.mem_append.mp hc with hc | hc
    · simp only [List.mem_singleton] at hc
      subst hc
      rw [show (translateNote mr f 1 (firstNoteCommentType f)).commentType =
          firstNoteCommentType f from rfl]
      exact firstNoteCommentType_eq f
    · rw [translatedComments_type mr f (n2 :: rest') 2 c hc]
      exact firstNoteCommentType_eq f

/-- Witness for C3 at a concrete discussion whose first note carries a
file position while the reply does not. -/
theorem translateDiscussion_comment_type_uniform_witness :
    ∃ pair, translateDiscussion sampleMR ⟨[sampleMultilineNote, sampleReply]⟩ =
        some (some pair) ∧
      ∀ c ∈ pair.1.comments ++
          (match pair.2 with | some t => t.comments | none => ([] : List Comment)),
        c.commentType =
          if hasFilePosition sampleMultilineNote then CommentTypeValues.codeChange
          else CommentTypeValues.text :=
  translateDiscussion_comment_type_uniform sampleMR sampleMultilineNote [sampleReply] rfl

theorem prepareNoteBody_not_multiline (mr : MergeRequest) (note : Note) (id : Nat)
    (h : id ≠ 1 ∨ noteMultilineRange note = none) :
    prepareNoteBody mr note id =
      noteContent mr note "" (suggestionReplaceAll "```suggestion" note.body) := by
  rcases h with hid | hml
  · simp [prepareNoteBody, hid]
  · by_cases hid : id = 1 <;> simp [prepareNoteBody, hid, hml]

set_option maxRecDepth 40000 in
/-- Claim C4: a first note whose line range spans 1-2 gets the bold
multiline warning "1-2" appended to its attribution line and its
range-qualified suggestion block rewritten to the bare marker with the
manual-application warning (shown on a concrete note); every note outside
that multiline case — a later note, or a first note without a spanning
line range — has its body's range-qualified suggestion marker normalized
to the bare marker. -/
theorem prepareNoteBody_multiline_and_normalization :
    (prepareNoteBody sampleMR sampleMultilineNote 1 =
      "*Migrated from [Gitlab](https://gitlab.com/gitlab-examples/php/-/merge_requests/1/diffs#note_42) | Author: ![John Doe](https://www.gravatar.com/avatar/0 =24x24) [John Doe](https://gitlab.com/john-doe)| **🚩 Multiline comment 1-2***\n\n🚩 **️Multiline suggestions are not supported in AzDO - if suggestion is multiline, commit it manually**\n```suggestion\nnew code\n```") ∧
    (∀ mr note id, id ≠ 1 ∨ noteMultilineRange note = none →
      prepareNoteBody mr note id =
        noteContent mr note "" (suggestionReplaceAll "```suggestion" note.body)) ∧
    (∀ mr note id pre tail, id ≠ 1 ∨ noteMultilineRange note = none →
      note.body = String.mk (pre ++ (suggestionMarker ++ tail)) →
      (∀ ch ∈ pre ++ (suggestionMarker ++ tail), ch ≠ '\n') →
      (∀ i, i < pre.length →
        suggestionMarker.isPrefixOf ((pre ++ (suggestionMarker ++ tail)).drop i) = false) →
      prepareNoteBody mr note id =
        noteContent mr note "" (String.mk (pre ++ "```suggestion".data))) := by
  refine ⟨by decide, ?_, ?_⟩
  · intro mr note id h
    exact prepareNoteBody_not_multiline mr note id h
  · intro mr note id pre tail h hbody hnl hpre
    rw [prepareNoteBody_not_multiline mr note id h, hbody]
    rw [suggestionReplaceAll_single_line _ pre tail hnl hpre]

/-- Witness for C4's universally quantified normalization parts: a
non-first note, and a first note whose position has no line range. -/
theorem prepareNoteBody_multiline_and_normalization_witness :
    (((2 : Nat) ≠ 1 ∨ noteMultilineRange sampleReply = none) ∧
      prepareNoteBody sampleMR sampleReply 2 =
        noteContent sampleMR sampleReply ""
          (suggestionReplaceAll "```suggestion" sampleReply.body)) ∧
    (((1 : Nat) ≠ 1 ∨ noteMultilineRange sampleSuggestionNote = none) ∧
      prepareNoteBody sampleMR sampleSuggestionNote 1 =
        noteContent sampleMR sampleSuggestionNote ""
          (String.mk ("x ".data ++ "```suggestion".data))) := by
  refine ⟨⟨Or.inl (by decide), ?_⟩, ⟨Or.inr (by decide), ?_⟩⟩
  · exact prepareNoteBody_multiline_and_normalization.2.1 sampleMR sampleReply 2
      (Or.inl (by decide))
  · exact prepareNoteBody_multiline_and_normalization.2.2 sampleMR sampleSuggestionNote 1
      "x ".data "-1+2".data (Or.inr (by decide)) (by decide) (by decide) (by decide)

/-- Claim C7: pull-request translation skips exactly the merge requests in
state "closed" or "merged"; every other state yields a payload. -/
theorem translatePullRequest_none_iff_closed_or_merged
    (mr : MergeRequest) (repository : GitRepository) :
    translatePullRequest mr repository = none ↔
      mr.state = "closed" ∨ mr.state = "merged" := by
  unfold translatePullRequest
  split <;> simp_all

/-- Claim C10: `translateDiscussion` reads the discussion's first note
unconditionally, so for an empty note list the access is out of bounds
(the panic marker `none`); for every non-empty discussion the translation
is defined. -/
theorem translateDiscussion_requires_nonempty_notes :
    (∀ mr, translateDiscussion mr ⟨[]⟩ = none) ∧
    (∀ mr firstNote rest, ∃ r, translateDiscussion mr ⟨firstNote :: rest⟩ = some r) := by
  constructor
  · intro mr; rfl
  · intro mr firstNote rest; exact ⟨_, rfl⟩

/-- Claim C8: both pagination loops stop right after any page whose
`NextPage <= CurrentPage` (independently of the remaining fuel), and the
page counter advances only when `NextPage > CurrentPage`. -/
theorem pagination_loops_stop_on_nonincreasing_next_page :
    (∀ pages page fuel, (pages page).nextPage ≤ (pages page).currentPage →
      importMergeRequestsLoop (fuel + 1) pages page = some (pages page).items) ∧
    (∀ pages page fuel, (pages page).nextPage > (pages page).currentPage →
      importMergeRequestsLoop (fuel + 1) pages page =
        match importMergeRequestsLoop fuel pages (page + 1) with
        | none => none
        | some rest => some ((pages page).items ++ rest)) ∧
    (∀ pages page fuel, (pages page).nextPage ≤ (pages page).currentPage →
      importCommentsLoop (fuel + 1) pages page = some (pages page).items) ∧
    (∀ pages page fuel, (pages page).nextPage > (pages page).currentPage →
      importCommentsLoop (fuel + 1) pages page =
        match importCommentsLoop fuel pages (page + 1) with
        | none => none
        | some rest => some ((pages page).items ++ rest)) := by
  refine ⟨?_, ?_, ?_, ?_⟩
  · intro pages page fuel h
    simp [importMergeRequestsLoop, not_lt.mpr h]
  · intro pages page fuel h
    simp [importMergeRequestsLoop, h]
  · intro pages page fuel h
    simp [importCommentsLoop, not_lt.mpr h]
  · intro pages page fuel h
    simp [importCommentsLoop, h]

theorem status_value_disequalities :
    GitAsyncOperationStatusValues.abandoned ≠ GitAsyncOperationStatusValues.completed ∧
    GitAsyncOperationStatusValues.failed ≠ GitAsyncOperationStatusValues.completed ∧
    GitAsyncOperationStatusValues.failed ≠ GitAsyncOperationStatusValues.abandoned ∧
    GitAsyncOperationStatusValues.inProgress ≠ GitAsyncOperationStatusValues.completed ∧
    GitAsyncOperationStatusValues.inProgress ≠ GitAsyncOperationStatusValues.abandoned ∧
    GitAsyncOperationStatusValues.inProgress ≠ GitAsyncOperationStatusValues.failed := by
  refine ⟨by decide, by decide, by decide, by decide, by decide, by decide⟩

theorem pollImportLoop_no_infoLine (repo : GitRepository) (polls : List PollResponse) :
    ∀ line, LogEvent.infoLine line ∉ (pollImportLoop repo polls).2 := by
  induction polls with
  | nil => intro line; simp [pollImportLoop]
  | cons p rest ih =>
    intro line
    rcases p with ⟨creq, err⟩
    cases creq with
    | none => cases err <;> simp [pollImportLoop]
    | some cur =>
      by_cases h1 : cur.status = GitAsyncOperationStatusValues.completed
      · simp [pollImportLoop, h1]
      · by_cases h2 : cur.status = GitAsyncOperationStatusValues.abandoned
        · simp [pollImportLoop, h1, h2, status_value_disequalities.1]
        · by_cases h3 : cur.status = GitAsyncOperationStatusValues.failed
          · simp [pollImportLoop, h1, h2, h3, status_value_disequalities.2.1,
              status_value_disequalities.2.2.1]
          · simp [pollImportLoop, h1, h2, h3, ih]

/-- Counterexample to C5 as stated: with repository creation succeeding
and import-job creation failing, `importRepository` aborts the project
(`done none`, nothing imported) yet the GIT audit line has already been
emitted. -/
theorem gitAuditLine_emitted_despite_failed_import :
    (importRepository sampleProject
        { reinitResult := Except.ok sampleRepo
          createImportResult := Except.error "could not create import request"
          polls := [] }).1 = ImportOutcome.done none ∧
    LogEvent.infoLine (gitAuditLine sampleProject sampleRepo) ∈
      (importRepository sampleProject
        { reinitResult := Except.ok sampleRepo
          createImportResult := Except.error "could not create import request"
          polls := [] }).2 := by
  decide

/-- Claim C5 (amended): the GIT audit line is emitted exactly for projects
whose destination repository creation succeeded — it is logged before
the import job is created, hence also when that job later cannot be
created, fails, or is abandoned. -/
theorem gitAuditLine_emitted_iff_repo_created (gitlabProject : GitlabProject)
    (env : ImportEnv) (line : String) :
    LogEvent.infoLine line ∈ (importRepository gitlabProject env).2 ↔
      ∃ repo, env.reinitResult = Except.ok repo ∧ line = gitAuditLine gitlabProject repo := by
  rcases env with ⟨reinit, create, polls⟩
  cases reinit with
  | error e => simp [importRepository]
  | ok repo =>
    cases create with
    | error e => simp [importRepository]
    | ok u => simp [importRepository, pollImportLoop_no_infoLine repo polls line]

/-- Claim C6: the poll loop returns the created repository handle on
Completed and on a nil result with nil error; it aborts on Abandoned and
on Failed; on every other status it sleeps 3 seconds and polls again, with
no retry ceiling. -/
theorem pollImportLoop_terminal_and_looping_behavior :
    (∀ repo cur e rest, cur.status = GitAsyncOperationStatusValues.completed →
      pollImportLoop repo ({ currentRequest := some cur, err := e } :: rest) =
        (PollOutcome.success repo,
         [LogEvent.debugLine ("import finished - " ++ repo.webUrl)])) ∧
    (∀ repo rest,
      pollImportLoop repo ({ currentRequest := none, err := none } :: rest) =
        (PollOutcome.success repo,
         [LogEvent.debugLine ("import finished - " ++ repo.webUrl)])) ∧
    (∀ repo cur e rest, cur.status = GitAsyncOperationStatusValues.abandoned →
      pollImportLoop repo ({ currentRequest := some cur, err := e } :: rest) =
        (PollOutcome.aborted, [LogEvent.errorLine "import request abandoned"])) ∧
    (∀ repo cur e rest, cur.status = GitAsyncOperationStatusValues.failed →
      pollImportLoop repo ({ currentRequest := some cur, err := e } :: rest) =
        (PollOutcome.aborted,
         [LogEvent.errorLine ("import request failed: " ++ cur.errorMessage)])) ∧
    (∀ repo cur e rest,
      cur.status ≠ GitAsyncOperationStatusValues.completed →
      cur.status ≠ GitAsyncOperationStatusValues.abandoned →
      cur.status ≠ GitAsyncOperationStatusValues.failed →
      pollImportLoop repo ({ currentRequest := some cur, err := e } :: rest) =
        ((pollImportLoop repo rest).1,
         LogEvent.debugLine "waiting for import to finish retry in 3 seconds..." ::
           LogEvent.sleepSeconds 3 :: (pollImportLoop repo rest).2)) ∧
    (∀ repo n,
      (pollImportLoop repo
          (List.replicate n
            { currentRequest := some
                { status := GitAsyncOperationStatusValues.inProgress, errorMessage := "" }
              err := none })).1 = PollOutcome.exhausted) := by
  refine ⟨?_, ?_, ?_, ?_, ?_, ?_⟩
  · intro repo cur e rest h
    simp [pollImportLoop, h]
  · intro repo rest
    simp [pollImportLoop]
  · intro repo cur e rest h
    simp [pollImportLoop, h, status_value_disequalities.1]
  · intro repo cur e rest h
    simp [pollImportLoop, h, status_value_disequalities.2.1, status_value_disequalities.2.2.1]
  · intro repo cur e rest h1 h2 h3
    simp [pollImportLoop, h1, h2, h3]
  · intro repo n
    induction n with
    | zero => simp [pollImportLoop]
    | succ k ih =>
      simp [List.replicate_succ, pollImportLoop, status_value_disequalities.2.2.2.1,
        status_value_disequalities.2.2.2.2.1, status_value_disequalities.2.2.2.2.2, ih]

/-- Witness for C6 at concrete poll responses of each kind. -/
theorem pollImportLoop_terminal_and_looping_behavior_witness :
    (pollImportLoop sampleRepo
        [{ currentRequest := some
             { status := GitAsyncOperationStatusValues.completed, errorMessage := "" }
           err := none }] =
      (PollOutcome.success sampleRepo,
       [LogEvent.debugLine ("import finished - " ++ sampleRepo.webUrl)])) ∧
    (pollImportLoop sampleRepo
        [{ currentRequest := some
             { status := GitAsyncOperationStatusValues.abandoned, errorMessage := "" }
           err := none }] =
      (PollOutcome.aborted, [LogEvent.errorLine "import request abandoned"])) ∧
    (pollImportLoop sampleRepo
        [{ currentRequest := some
             { status := GitAsyncOperationStatusValues.failed, errorMessage := "boom" }
           err := none }] =
      (PollOutcome.aborted,
       [LogEvent.errorLine ("import request failed: " ++
         ({ status := GitAsyncOperationStatusValues.failed,
            errorMessage := "boom" } : GitImportRequestResult).errorMessage)])) ∧
    (pollImportLoop sampleRepo
        [{ currentRequest := some
             { status := GitAsyncOperationStatusValues.queued, errorMessage := "" }
           err := none }] =
      ((pollImportLoop sampleRepo []).1,
       LogEvent.debugLine "waiting for import to finish retry in 3 seconds..." ::
         LogEvent.sleepSeconds 3 :: (pollImportLoop sampleRepo []).2)) :=
  ⟨pollImportLoop_terminal_and_looping_behavior.1 sampleRepo
      { status := GitAsyncOperationStatusValues.completed, errorMessage := "" } none [] rfl,
   pollImportLoop_terminal_and_looping_behavior.2.2.1 sampleRepo
      { status := GitAsyncOperationStatusValues.abandoned, errorMessage := "" } none [] rfl,
   pollImportLoop_terminal_and_looping_behavior.2.2.2.1 sampleRepo
      { status := GitAsyncOperationStatusValues.failed, errorMessage := "boom" } none [] rfl,
   pollImportLoop_terminal_and_looping_behavior.2.2.2.2.1 sampleRepo
      { status := GitAsyncOperationStatusValues.queued, errorMessage := "" } none []
      (by decide) (by decide) (by decide)⟩

/-- Claim C9: a poll call returning no result object together with a
non-nil error makes the loop dereference a nil pointer; the loop never
panics when every errored poll still carries a result object. -/
theorem pollImportLoop_nil_result_with_error_panics :
    (∀ repo e rest,
      pollImportLoop repo ({ currentRequest := none, err := some e } :: rest) =
        (PollOutcome.panicNilDeref, [])) ∧
    (∀ repo polls,
      (∀ p ∈ polls, p.currentRequest = none → p.err = none) →
      (pollImportLoop repo polls).1 ≠ PollOutcome.panicNilDeref) := by
  constructor
  · intro repo e rest; rfl
  · intro repo polls
    induction polls with
    | nil => intro h; simp [pollImportLoop]
    | cons p rest ih =>
      intro h
      have hrest : ∀ q ∈ rest, q.currentRequest = none → q.err = none :=
        fun q hq => h q (List.mem_cons_of_mem p hq)
      have hp := h p (List.mem_cons_self p rest)
      rcases p with ⟨creq, err⟩
      cases creq with
      | none =>
        have herr : err = none := hp rfl
        subst herr
        simp [pollImportLoop]
      | some cur =>
        by_cases h1 : cur.status = GitAsyncOperationStatusValues.completed
        · simp [pollImportLoop, h1]
        · by_cases h2 : cur.status = GitAsyncOperationStatusValues.abandoned
          · simp [pollImportLoop, h1, h2, status_value_disequalities.1]
          · by_cases h3 : cur.status = GitAsyncOperationStatusValues.failed
            · simp [pollImportLoop, h1, h2, h3, status_value_disequalities.2.1,
                status_value_disequalities.2.2.1]
            · simpa [pollImportLoop, h1, h2, h3] using ih hrest

/-- Witness for C9 at concrete poll responses. -/
theorem pollImportLoop_nil_result_with_error_panics_witness :
    (pollImportLoop sampleRepo [{ currentRequest := none, err := some "boom" }] =
      (PollOutcome.panicNilDeref, [])) ∧
    (pollImportLoop sampleRepo [{ currentRequest := none, err := none }]).1 ≠
      PollOutcome.panicNilDeref :=
  ⟨pollImportLoop_nil_result_with_error_panics.1 sampleRepo "boom" [],
   pollImportLoop_nil_result_with_error_panics.2 sampleRepo
      [{ currentRequest := none, err := none }] (by decide)⟩

/-- Witness for C8 at a concrete page environment. -/
theorem pagination_loops_stop_on_nonincreasing_next_page_witness :
    ((0 : Int) ≤ 1 ∧
      importMergeRequestsLoop 5 (fun _ => ⟨[], 0, 1⟩) 1 = some []) ∧
    ((0 : Int) ≤ 1 ∧
      importCommentsLoop 5 (fun _ => ⟨[], 0, 1⟩) 1 = some []) := by
  refine ⟨⟨by decide, ?_⟩, ⟨by decide, ?_⟩⟩
  · exact pagination_loops_stop_on_nonincreasing_next_page.1 (fun _ => ⟨[], 0, 1⟩) 1 4 (by decide)
  · exact pagination_loops_stop_on_nonincreasing_next_page.2.2.1 (fun _ => ⟨[], 0, 1⟩) 1 4 (by decide)

end GitlabAzdoMigration
